import Mathlib

/-!
# Verification of the s-comp native entry-point shim

A shallow embedding of `src/src/main/c/main.c`: a minimal runner that calls an
externally linked function `our_code_starts_here` (no arguments, `int64_t`
result), prints the result in signed decimal followed by one newline via
`printf("%" PRId64 "\n", result)`, and returns 0.

The external function is modelled as a parameter `ext : Unit → Int` whose
value is constrained to the 64-bit signed range where a claim demands it.
`printf`'s decimal conversion (`%` `PRId64`) is embedded as an executable
rendering function `intDecString`; `printf`'s own return value, which `main`
discards, is modelled as an oracle parameter `printfRet`.
-/

namespace SComp

/-! ## 64-bit signed integer range (`int64_t`) -/

/-- The minimum value of `int64_t`: −2⁶³. -/
def int64Min : Int := -9223372036854775808

/-- The maximum value of `int64_t`: 2⁶³ − 1. -/
def int64Max : Int := 9223372036854775807

/-- `r` is representable as an `int64_t`. -/
def isInt64 (r : Int) : Prop := int64Min ≤ r ∧ r ≤ int64Max

instance (r : Int) : Decidable (isInt64 r) :=
  inferInstanceAs (Decidable (int64Min ≤ r ∧ r ≤ int64Max))

/-! ## Decimal rendering (the `%` `PRId64` conversion of `printf`)

`printf`'s `d` conversion writes the argument in signed decimal: a `-` sign
for negative values, then the decimal digits of the magnitude, most
significant first, with no leading zeros.  We embed it as a fuel-based
recursion emitting `n % 10` after the digits of `n / 10`; fuel `n` always
suffices since `n / 10 < n` for `n ≥ 1`. -/

/-- Digits of `n`, most significant first, for `n ≥ 1` (given enough fuel);
`[]` for `n = 0`. -/
def natDecCharsAux : Nat → Nat → List Char
  | _, 0 => []
  | 0, _ + 1 => []
  | fuel + 1, n + 1 =>
      natDecCharsAux fuel ((n + 1) / 10) ++ [Nat.digitChar ((n + 1) % 10)]

/-- The decimal digit string of a natural number (`"0"` for zero). -/
def natDecChars (n : Nat) : List Char :=
  if n = 0 then ['0'] else natDecCharsAux n n

/-- The signed decimal rendering of an integer, as produced by
`printf("%" PRId64, r)`. -/
def intDecString (r : Int) : String :=
  ⟨(if r < 0 then ['-'] else []) ++ natDecChars r.natAbs⟩

/-! ## The Runner (`main` in `main.c`) -/

/-- The observable outcome of one run of the executable. -/
structure RunResult where
  stdout : String
  exitCode : Int
deriving DecidableEq, Repr

/-- `int main(int argc, char** argv)`, with the externally linked function
`ext` and the environment's `printf` return-value behaviour `printfRet`
(number of characters written, or negative on error) passed as oracles.
Line by line: bind `result` to `ext ()`; call `printf` on the formatted
string, discarding its return value; `return 0`. -/
def mainRunEnv (ext : Unit → Int) (printfRet : String → Int)
    (argc : Nat) (argv : List String) : RunResult :=
  let result : Int := ext ()
  let out : String := intDecString result ++ "\n"
  let _p : Int := printfRet out
  { stdout := out, exitCode := 0 }

/-- A `printf` that succeeds, returning the number of characters written. -/
def printfOk : String → Int := fun s => (s.length : Int)

/-- The Runner under a normally functioning `printf`. -/
def mainRun (ext : Unit → Int) (argc : Nat) (argv : List String) : RunResult :=
  mainRunEnv ext printfOk argc argv

/-- One process invocation of the executable (the operating system supplies
`argc = 0`-equivalent arguments; they are unused either way). -/
def runProcess (ext : Unit → Int) : RunResult := mainRun ext 0 []

/-- Two successive process invocations with the same external
implementation.  `main.c` has no static or global state, so the embedding of
a run is a pure function of `ext` and the second run receives nothing from
the first. -/
def runTwice (ext : Unit → Int) : RunResult × RunResult :=
  (runProcess ext, runProcess ext)

/-! ## Event trace of one run -/

/-- The externally observable events of a run. -/
inductive Event where
  | callExternal : Event
  | writeStdout : String → Event
  | exitReturn : Int → Event
deriving DecidableEq, Repr

/-- The straight-line event trace of `main`: the external call, then the
single `printf` write, then `return 0`.  There is no branch, loop or retry
in `main.c`, so the trace is this fixed sequence. -/
def mainTrace (ext : Unit → Int) : List Event :=
  let result : Int := ext ()
  [Event.callExternal,
   Event.writeStdout (intDecString result ++ "\n"),
   Event.exitReturn 0]

/-! ## The external-symbol declaration (`main.c` lines 5–13) -/

/-- An external-function declaration as the linker sees it. -/
structure ExternDecl where
  linkName : String
  paramTypes : List String
  returnType : String
deriving DecidableEq, Repr

/-- The MSVC branch of the declaration:
`extern int64_t our_code_starts_here();` — MSVC applies no decoration to
C symbols of this shape, so the link name is the plain identifier. -/
def declMSVC : ExternDecl :=
  { linkName := "our_code_starts_here", paramTypes := [], returnType := "int64_t" }

/-- The GCC branch of the declaration:
`extern int64_t our_code_starts_here() asm("our_code_starts_here");` — the
`asm` directive pins the undecorated link-time name. -/
def declGCC : ExternDecl :=
  { linkName := "our_code_starts_here", paramTypes := [], returnType := "int64_t" }

/-- The two toolchain branches of the `#ifdef _MSC_VER` in `main.c`. -/
inductive Toolchain where
  | msvc : Toolchain
  | gcc : Toolchain
deriving DecidableEq, Repr

/-- The declaration selected by the preprocessor for each toolchain. -/
def externDeclFor : Toolchain → ExternDecl
  | Toolchain.msvc => declMSVC
  | Toolchain.gcc => declGCC

/-- All external function dependencies of the executable (under either
toolchain, the single declaration above). -/
def externalDependencies (t : Toolchain) : List ExternDecl :=
  [externDeclFor t]

/-! ## The second source variant (claim C10)

Modelled from the spec: the repository's second near-duplicate copy of the
entry point is not among the provided sources; per the spec it "invokes an
externally-defined function named `our_code_starts_here`, interprets its
return value as a 64-bit signed integer, and prints that integer to standard
output followed by a newline", exiting with code 0. -/

/-- Modelled from the spec: the second near-duplicate entry-point variant. -/
def mainRunVariant2 (ext : Unit → Int) (argc : Nat) (argv : List String) :
    RunResult :=
  { stdout := intDecString (ext ()) ++ "\n", exitCode := 0 }

/-! ## Specification-side characterisation of signed decimal strings -/

/-- The value denoted by a most-significant-first run of decimal digit
characters (Horner evaluation at base 10 of ASCII digit codes). -/
def hornerVal (ds : List Char) : Nat :=
  ds.foldl (fun a c => 10 * a + (c.toNat - 48)) 0

/-- `line` is the signed decimal representation of `r`: an optional leading
`-` (exactly for negative `r`), then a non-empty run of decimal digit
characters with no leading zero, denoting the magnitude of `r`. -/
def SignedDecRepr (r : Int) (line : List Char) : Prop :=
  ∃ ds : List Char,
    line = (if r < 0 then ['-'] else []) ++ ds ∧
    ds ≠ [] ∧
    (∀ c ∈ ds, '0' ≤ c ∧ c ≤ '9') ∧
    hornerVal ds = r.natAbs ∧
    (1 < ds.length → ds.head? ≠ some '0')

/-! ## Rendering lemmas -/

/-- With enough fuel, the fuel-based renderer agrees with `Nat.digits`. -/
theorem natDecCharsAux_eq_digits (fuel : Nat) :
    ∀ n : Nat, n ≤ fuel →
      natDecCharsAux fuel n = ((Nat.digits 10 n).map Nat.digitChar).reverse := by
  induction fuel with
  | zero =>
      intro n hn
      have hn0 : n = 0 := Nat.le_zero.mp hn
      subst hn0
      simp [natDecCharsAux]
  | succ fuel ih =>
      intro n hn
      cases n with
      | zero => simp [natDecCharsAux]
      | succ m =>
          have hdiv : (m + 1) / 10 ≤ fuel := by
            have h1 : (m + 1) / 10 < m + 1 :=
              Nat.div_lt_self (Nat.succ_pos m) (by norm_num)
            omega
          have hrec := ih ((m + 1) / 10) hdiv
          have hdig : Nat.digits 10 (m + 1)
              = (m + 1) % 10 :: Nat.digits 10 ((m + 1) / 10) :=
            Nat.digits_def' (by norm_num) (Nat.succ_pos m)
          rw [natDecCharsAux, hrec, hdig]
          simp

/-- The renderer is `Nat.digits` reversed, mapped through `Nat.digitChar`
(with the `n = 0` special case). -/
theorem natDecChars_eq (n : Nat) :
    natDecChars n
      = if n = 0 then ['0']
        else ((Nat.digits 10 n).map Nat.digitChar).reverse := by
  by_cases h : n = 0
  · simp [natDecChars, h]
  · simp [natDecChars, h, natDecCharsAux_eq_digits n n (Nat.le_refl n)]

/-- Characters of decimal digits below 10: range and ASCII code. -/
theorem digitChar_bounds :
    ∀ d : Nat, d < 10 →
      '0' ≤ Nat.digitChar d ∧ Nat.digitChar d ≤ '9'
        ∧ (Nat.digitChar d).toNat = 48 + d := by
  decide

/-- Horner evaluation of a reversed, `digitChar`-mapped digit list recovers
`Nat.ofDigits`. -/
theorem hornerVal_reverse_map (L : List Nat) (hL : ∀ d ∈ L, d < 10) :
    hornerVal ((L.map Nat.digitChar).reverse) = Nat.ofDigits 10 L := by
  induction L with
  | nil => simp [hornerVal, Nat.ofDigits_nil]
  | cons d L ih =>
      have hd : d < 10 := hL d (List.mem_cons_self d L)
      have hL' : ∀ e ∈ L, e < 10 := fun e he => hL e (List.mem_cons_of_mem d he)
      have hcode : (Nat.digitChar d).toNat = 48 + d := (digitChar_bounds d hd).2.2
      simp only [List.map_cons, List.reverse_cons, hornerVal, List.foldl_append,
        List.foldl_cons, List.foldl_nil]
      have ihv : (L.map Nat.digitChar).reverse.foldl
          (fun a c => 10 * a + (c.toNat - 48)) 0 = Nat.ofDigits 10 L := ih hL'
      rw [ihv, hcode, Nat.ofDigits_cons]
      omega

/-- The rendered digit run of `n` is non-empty, consists of decimal digit
characters, denotes `n`, and carries no leading zero. -/
theorem natDecChars_spec (n : Nat) :
    natDecChars n ≠ [] ∧
    (∀ c ∈ natDecChars n, '0' ≤ c ∧ c ≤ '9') ∧
    hornerVal (natDecChars n) = n ∧
    (1 < (natDecChars n).length → (natDecChars n).head? ≠ some '0') := by
  by_cases h0 : n = 0
  · subst h0
    exact ⟨by decide, by decide, by decide, by decide⟩
  · have hlt : ∀ d ∈ Nat.digits 10 n, d < 10 :=
      fun d hd => Nat.digits_lt_base (by norm_num) hd
    have hne : Nat.digits 10 n ≠ [] := Nat.digits_ne_nil_iff_ne_zero.mpr h0
    rw [natDecChars_eq, if_neg h0]
    refine ⟨?_, ?_, ?_, ?_⟩
    · cases hd : Nat.digits 10 n with
      | nil => exact absurd hd hne
      | cons d L => simp [hd]
    · intro c hc
      simp only [List.mem_reverse, List.mem_map] at hc
      obtain ⟨d, hd, rfl⟩ := hc
      have := digitChar_bounds d (hlt d hd)
      exact ⟨this.1, this.2.1⟩
    · rw [hornerVal_reverse_map _ hlt, Nat.ofDigits_digits]
    · intro _ hcontra
      rw [List.head?_reverse, List.getLast?_map,
        List.getLast?_eq_getLast _ hne] at hcontra
      simp only [Option.map_some', Option.some.injEq] at hcontra
      have hdlt : (Nat.digits 10 n).getLast hne < 10 :=
        hlt _ (List.getLast_mem hne)
      have hdne : (Nat.digits 10 n).getLast hne ≠ 0 :=
        Nat.getLast_digit_ne_zero 10 h0
      have hcode := (digitChar_bounds _ hdlt).2.2
      rw [hcontra] at hcode
      have h48 : ('0' : Char).toNat = 48 := by decide
      rw [h48] at hcode
      omega

/-- `intDecString` meets the signed-decimal-representation contract. -/
theorem intDecString_signedDecRepr (r : Int) :
    SignedDecRepr r (intDecString r).data := by
  obtain ⟨hne, hdig, hval, hlead⟩ := natDecChars_spec r.natAbs
  exact ⟨natDecChars r.natAbs, rfl, hne, hdig, hval, hlead⟩

/-- No character of the formatted line is a newline. -/
theorem intDecString_no_newline (r : Int) :
    ∀ c ∈ (intDecString r).data, c ≠ '\n' := by
  obtain ⟨-, hdig, -, -⟩ := natDecChars_spec r.natAbs
  intro c hc heq
  subst heq
  rcases List.mem_append.mp hc with h1 | h2
  · by_cases hr : r < 0
    · rw [if_pos hr] at h1
      exact absurd (List.mem_singleton.mp h1) (by decide)
    · rw [if_neg hr] at h1
      exact absurd h1 (List.not_mem_nil _)
  · exact absurd (hdig _ h2).1 (by decide)

/-! ## Claims -/

/-- C1: for every 64-bit signed integer result returned by the external
entry point, the Runner's standard output is exactly the signed decimal
representation of that result (no leading zeros, a leading `-` for negative
values) followed by a single newline, with no other output, and the process
exits with code 0. -/
theorem runner_output_spec (ext : Unit → Int) (argc : Nat) (argv : List String)
    (hr : isInt64 (ext ())) :
    ∃ line : List Char,
      (mainRun ext argc argv).stdout.data = line ++ ['\n'] ∧
      (∀ c ∈ line, c ≠ '\n') ∧
      SignedDecRepr (ext ()) line ∧
      (mainRun ext argc argv).exitCode = 0 :=
  ⟨(intDecString (ext ())).data, rfl, intDecString_no_newline _,
    intDecString_signedDecRepr _, rfl⟩

/-- Witness for C1 at the concrete external result 42. -/
theorem runner_output_spec_witness :
    isInt64 ((fun _ : Unit => (42 : Int)) ()) ∧
    (∃ line : List Char,
      (mainRun (fun _ : Unit => (42 : Int)) 0 []).stdout.data = line ++ ['\n'] ∧
      (∀ c ∈ line, c ≠ '\n') ∧
      SignedDecRepr ((fun _ : Unit => (42 : Int)) ()) line ∧
      (mainRun (fun _ : Unit => (42 : Int)) 0 []).exitCode = 0) :=
  ⟨by decide, runner_output_spec (fun _ : Unit => (42 : Int)) 0 [] (by decide)⟩

/-- C2: at the minimum `int64_t` value the output is exactly
`"-9223372036854775808\n"` and at the maximum exactly
`"9223372036854775807\n"`; the full-width strings show the value is not
truncated to a narrower native integer width. -/
theorem runner_output_int64_bounds (argc : Nat) (argv : List String) :
    mainRun (fun _ => int64Min) argc argv
      = { stdout := "-9223372036854775808\n", exitCode := 0 } ∧
    mainRun (fun _ => int64Max) argc argv
      = { stdout := "9223372036854775807\n", exitCode := 0 } :=
  ⟨rfl, rfl⟩

/-- C3: an external result of 0 prints exactly `"0\n"` and an external
result of −1 prints exactly `"-1\n"`. -/
theorem runner_output_zero_neg_one (argc : Nat) (argv : List String) :
    mainRun (fun _ => (0 : Int)) argc argv
      = { stdout := "0\n", exitCode := 0 } ∧
    mainRun (fun _ => (-1 : Int)) argc argv
      = { stdout := "-1\n", exitCode := 0 } :=
  ⟨rfl, rfl⟩

/-- C4: the Runner never consults `argc`/`argv`: two runs with the same
external implementation and arbitrary different argument vectors have
identical standard output and exit code. -/
theorem runner_args_unused (ext : Unit → Int)
    (argcA argcB : Nat) (argvA argvB : List String) :
    mainRun ext argcA argvA = mainRun ext argcB argvB := rfl

/-- C5: the Runner is deterministic — two successive invocations with the
same deterministic external implementation yield identical standard output
(the embedding of `main.c` is a pure function: there is no static or global
state to carry between runs). -/
theorem runner_deterministic (ext : Unit → Int) :
    (runTwice ext).1.stdout = (runTwice ext).2.stdout ∧
    (runTwice ext).1 = (runTwice ext).2 :=
  ⟨rfl, rfl⟩

/-- C6: every run calls the external entry point exactly once, and the
single stdout write occurs strictly after that call in the trace, with
nothing written during the computing phase and no branching, looping, or
retry — the trace is exactly call, then write, then return. -/
theorem runner_single_call_then_report (ext : Unit → Int) :
    (mainTrace ext).count Event.callExternal = 1 ∧
    (∃ s : String, mainTrace ext
        = [Event.callExternal, Event.writeStdout s, Event.exitReturn 0]) :=
  ⟨rfl, ⟨intDecString (ext ()) ++ "\n", rfl⟩⟩

/-- C7: `main` never inspects `printf`'s return value: the run outcome is
the same under any two `printf` return behaviours, and even when `printf`
reports an error on every call (returns −1) the exit code is still 0. -/
theorem runner_ignores_printf_result (ext : Unit → Int)
    (prA prB : String → Int) (argc : Nat) (argv : List String) :
    mainRunEnv ext prA argc argv = mainRunEnv ext prB argc argv ∧
    (mainRunEnv ext (fun _ => (-1 : Int)) argc argv).exitCode = 0 :=
  ⟨rfl, rfl⟩

/-- C8: `main` itself is total and cannot trap: for every external result,
every `printf` behaviour and every argument vector, the (total, `Option`-free)
embedding of the shim's own straight-line code yields exit code 0 and its
trace ends with the `return 0` statement. -/
theorem runner_total_reaches_return (ext : Unit → Int) (pr : String → Int)
    (argc : Nat) (argv : List String) :
    (mainRunEnv ext pr argc argv).exitCode = 0 ∧
    (mainTrace ext).getLast? = some (Event.exitReturn 0) :=
  ⟨rfl, rfl⟩

/-- C9: under either toolchain branch, the executable's external dependency
is the single declaration whose link-time symbol name is exactly
`our_code_starts_here` (pinned undecorated by the `asm` directive on GCC,
undecorated by default on MSVC), with no parameters and an `int64_t`
return type, and both branches pin the same link name. -/
theorem extern_symbol_contract (t : Toolchain) :
    externalDependencies t = [externDeclFor t] ∧
    (externDeclFor t).linkName = "our_code_starts_here" ∧
    (externDeclFor t).paramTypes = [] ∧
    (externDeclFor t).returnType = "int64_t" ∧
    (externDeclFor Toolchain.msvc).linkName
      = (externDeclFor Toolchain.gcc).linkName := by
  cases t
  · exact ⟨rfl, rfl, rfl, rfl, rfl⟩
  · exact ⟨rfl, rfl, rfl, rfl, rfl⟩

/-- C10: the two near-duplicate source variants of the entry point have
identical observable behaviour: for every external result and argument
vector, both produce the same standard output and the same exit code (the
second variant is modelled from the spec, being absent from the provided
sources). -/
theorem variants_observably_equal (ext : Unit → Int)
    (argc : Nat) (argv : List String) :
    mainRun ext argc argv = mainRunVariant2 ext argc argv ∧
    (mainRun ext argc argv).stdout = (mainRunVariant2 ext argc argv).stdout ∧
    (mainRun ext argc argv).exitCode = (mainRunVariant2 ext argc argv).exitCode :=
  ⟨rfl, rfl, rfl⟩

end SComp
